import Mathlib

/-!
Verification of the ESG merge / portfolio-metrics / insight logic of the
crypto-esg-dashboard repository (`utils/esg_logic.py`), shallowly embedded
in Lean 4.  Dataframes become lists of records, numeric columns become
`Rat`, and the NaN produced by `pd.to_numeric(..., errors='coerce')` (and
propagated through arithmetic, then skipped by `.sum()`) is embedded as
`Option Rat` with `none` playing NaN.
-/

/-- A row of the price dataframe as fetched from the exchange: the join key
`market` and the raw `last_price` column, which arrives as a string and is
coerced to numeric by the merge step. -/
structure PriceRecord where
  market : String
  last_price : String
  deriving Repr, DecidableEq

/-- A row of the static ESG reference table: `market` key, display `name`,
and the three component scores. -/
structure EsgRecord where
  market : String
  name : String
  esg_e : Rat
  esg_s : Rat
  esg_g : Rat
  deriving Repr, DecidableEq

/-- A row of the merged dataframe produced by `merge_price_and_esg`:
price and ESG columns side by side plus the derived "ESG Score" and
"ESG Rating" columns.  `last_price` is `none` when the raw string was
non-numeric (pandas NaN). -/
structure MergedAsset where
  market : String
  name : String
  last_price : Option Rat
  esg_e : Rat
  esg_s : Rat
  esg_g : Rat
  esgScore : Rat
  esgRating : String
  deriving Repr, DecidableEq

/-- Value of one decimal digit character. -/
def digitVal (c : Char) : Nat := c.toNat - 48

/-- Natural number denoted by a list of decimal digit characters
(most significant first). -/
def natOfDigits (cs : List Char) : Nat :=
  cs.foldl (fun n c => 10 * n + digitVal c) 0

/-- Splits a list of characters at the first `'.'`: the integer part and,
when a dot is present, the remainder after it. -/
def splitFrac : List Char → List Char × Option (List Char)
  | [] => ([], none)
  | c :: cs =>
    if c = '.' then ([], some cs)
    else
      let r := splitFrac cs
      (c :: r.1, r.2)

/-- Model of `pd.to_numeric(s, errors='coerce')` on one cell: parses an
optionally signed decimal literal (`"123"`, `"-4.5"`, `".5"`, `"7."`) to a
rational; any malformed cell becomes `none` (pandas NaN) instead of
raising. -/
def to_numeric (s : String) : Option Rat :=
  let cs := s.toList
  let signBody : Rat × List Char :=
    match cs with
    | '-' :: rest => (-1, rest)
    | '+' :: rest => (1, rest)
    | _ => (1, cs)
  let sign := signBody.1
  let body := signBody.2
  match splitFrac body with
  | (ip, none) =>
    if !ip.isEmpty && ip.all Char.isDigit then
      some (sign * (natOfDigits ip : Rat))
    else none
  | (ip, some fp) =>
    if (!ip.isEmpty || !fp.isEmpty) && ip.all Char.isDigit
        && fp.all Char.isDigit && !fp.any (fun c => c = '.') then
      some (sign * ((natOfDigits ip : Rat)
        + (natOfDigits fp : Rat) / (10 : Rat) ^ fp.length))
    else none

/-- `compute_weighted_esg`: the derived "ESG Score" column,
`(esg_e + esg_s + esg_g) / 3`, for one row. -/
def compute_weighted_esg (esg_e esg_s esg_g : Rat) : Rat :=
  (esg_e + esg_s + esg_g) / 3

/-- `categorize_esg_score`: the rating label, thresholds checked top-down,
first match wins. -/
def categorize_esg_score (score : Rat) : String :=
  if score ≥ 80 then "A+ (Excellent)"
  else if score ≥ 70 then "A (Very Good)"
  else if score ≥ 60 then "B+ (Good)"
  else if score ≥ 50 then "B (Fair)"
  else if score ≥ 40 then "C+ (Below Average)"
  else "C (Poor)"

/-- The merged row built from one matching price row and ESG row: the
coerced price, both tables' columns, and the derived score and rating
columns added by `merge_price_and_esg`. -/
def mkMergedAsset (p : PriceRecord) (e : EsgRecord) : MergedAsset :=
  let score := compute_weighted_esg e.esg_e e.esg_s e.esg_g
  { market := p.market
    name := e.name
    last_price := to_numeric p.last_price
    esg_e := e.esg_e
    esg_s := e.esg_s
    esg_g := e.esg_g
    esgScore := score
    esgRating := categorize_esg_score score }

/-- `merge_price_and_esg`: coerces `last_price` to numeric (NaN on
failure), inner-joins the two tables on `market` (left order preserved,
one output row per matching pair, as `DataFrame.merge(how="inner")`
does), then adds the "ESG Score" and "ESG Rating" columns. -/
def merge_price_and_esg (price_df : List PriceRecord)
    (esg_df : List EsgRecord) : List MergedAsset :=
  (price_df.map (fun p =>
    esg_df.filterMap (fun e =>
      if p.market = e.market then some (mkMergedAsset p e) else none))).flatten

example :
    (merge_price_and_esg
      [⟨"BTCUSDT", "50000"⟩, ⟨"ETHUSDT", "3000"⟩, ⟨"XRPUSDT", "1"⟩]
      [⟨"BTCUSDT", "BTC", 40, 40, 40⟩, ⟨"ETHUSDT", "ETH", 70, 70, 70⟩]).map
      (fun a => (a.market, a.last_price, a.esgScore, a.esgRating)) =
    [("BTCUSDT", some 50000, 40, "C+ (Below Average)"),
     ("ETHUSDT", some 3000, 70, "A (Very Good)")] := by
  simp +decide [merge_price_and_esg, mkMergedAsset, compute_weighted_esg,
    categorize_esg_score, to_numeric, splitFrac, natOfDigits, digitVal]
  norm_num

example : to_numeric "abc" = none := by
  simp +decide [to_numeric, splitFrac, natOfDigits, digitVal]
example : to_numeric "-4.5" = some (-(9/2) : Rat) := by
  simp +decide [to_numeric, splitFrac, natOfDigits, digitVal]
  norm_num

/-- A row of the valued dataframe: the merged columns plus the "Holding"
and "Value (USD)" columns added by `calculate_portfolio_metrics`.
`value_usd` is `none` (NaN) when `last_price` was NaN. -/
structure ValuedAsset extends MergedAsset where
  holding : Rat
  value_usd : Option Rat
  deriving Repr, DecidableEq

/-- The `metrics` dict returned by `calculate_portfolio_metrics`. -/
structure PortfolioMetrics where
  total_value : Rat
  weighted_esg : Rat
  weighted_environmental : Rat
  weighted_social : Rat
  weighted_governance : Rat
  num_holdings : Nat
  deriving Repr, DecidableEq

/-- pandas `Series.sum()` over a column that may hold NaN entries: NaN
values are skipped (`skipna=True`, the pandas default). -/
def nanSum (l : List (Option Rat)) : Rat :=
  (l.filterMap id).sum

/-- The built-in sample holdings substituted when `holdings_dict is None`
(0.5 BTC, 1.2 ETH, 100 ADA, 500 MATIC, 10 SOL). -/
def sample_holdings : List (String × Rat) :=
  [("BTCUSDT", 1/2), ("ETHUSDT", 6/5), ("ADAUSDT", 100),
   ("MATICUSDT", 500), ("SOLUSDT", 10)]

/-- One valued row: `Holding` is the holdings-map lookup with missing
symbols filled with 0 (`.map(holdings_dict).fillna(0)`), and
`Value (USD) = Holding * last_price` (a NaN price gives a NaN value). -/
def mkValuedAsset (hd : List (String × Rat)) (m : MergedAsset) : ValuedAsset :=
  let h := (hd.lookup m.market).getD 0
  { toMergedAsset := m
    holding := h
    value_usd := m.last_price.map (fun p => h * p) }

/-- `calculate_portfolio_metrics`: adds the "Holding" and "Value (USD)"
columns (substituting the built-in sample map when the caller passes no
holdings), sums the portfolio value, and computes the four value-weighted
ESG metrics, all forced to 0 unless `total_value > 0`. -/
def calculate_portfolio_metrics (df : List MergedAsset)
    (holdings_dict : Option (List (String × Rat))) :
    List ValuedAsset × PortfolioMetrics :=
  let hd := holdings_dict.getD sample_holdings
  let valued := df.map (mkValuedAsset hd)
  let total_value := nanSum (valued.map (fun v => v.value_usd))
  let wavg : (ValuedAsset → Rat) → Rat := fun metric =>
    nanSum (valued.map (fun v => v.value_usd.map (fun x => metric v * x)))
      / total_value
  let weighted : Rat × Rat × Rat × Rat :=
    if total_value > 0 then
      (wavg (fun v => v.esgScore), wavg (fun v => v.esg_e),
       wavg (fun v => v.esg_s), wavg (fun v => v.esg_g))
    else (0, 0, 0, 0)
  (valued,
   { total_value := total_value
     weighted_esg := weighted.1
     weighted_environmental := weighted.2.1
     weighted_social := weighted.2.2.1
     weighted_governance := weighted.2.2.2
     num_holdings := (valued.filter (fun v => v.holding > 0)).length })

/-- First element at which `f` attains its maximum over the list: pandas
`Series.idxmax` composed with the `df.loc[...]` row lookup ("if multiple
values equal the maximum, the first row label with that value is
returned").  `none` models the `ValueError` pandas raises on an empty
series. -/
def idxmaxBy {α : Type} (f : α → Rat) : List α → Option α
  | [] => none
  | x :: xs =>
    match idxmaxBy f xs with
    | none => some x
    | some y => some (if f y > f x then y else x)

/-- First element at which `f` attains its minimum over the list
(`Series.idxmin` composed with the row lookup). -/
def idxminBy {α : Type} (f : α → Rat) : List α → Option α
  | [] => none
  | x :: xs =>
    match idxminBy f xs with
    | none => some x
    | some y => some (if f y < f x then y else x)

/-- How a `get_esg_insights` call can fail.  `valueErrorEmptyIdxmax` is
the `ValueError` pandas raises for `idxmax`/`idxmin` on an empty series;
`emptyInputError` is the explicit guarded precondition failure the spec
posits.  Keeping both lets the two failure modes be told apart. -/
inductive InsightFailure where
  | valueErrorEmptyIdxmax : InsightFailure
  | emptyInputError : InsightFailure
  deriving Repr, DecidableEq

/-- One decimal place, the `:.1f` of the f-strings (float rounding
abstracted to rational rounding). -/
def fmt1 (x : Rat) : String :=
  let t : Int := round (x * 10)
  let n := t.natAbs
  (if t < 0 then "-" else "") ++ toString (n / 10) ++ "." ++ toString (n % 10)

/-- Plain rendering of a rational, for the `{env_leader['esg_e']}`
interpolation. -/
def fmtNum (x : Rat) : String :=
  if x.den = 1 then toString x.num
  else toString x.num ++ "/" ++ toString x.den

/-- The best-ESG insight string. -/
def bestMsg (v : ValuedAsset) : String :=
  "🏆 Highest ESG Score: " ++ v.name ++ " (" ++ fmt1 v.esgScore ++ ")"

/-- The worst-ESG insight string. -/
def worstMsg (v : ValuedAsset) : String :=
  "⚠️ Lowest ESG Score: " ++ v.name ++ " (" ++ fmt1 v.esgScore ++ ")"

/-- The threshold-count insight string. -/
def countMsg (high total : Nat) : String :=
  "📊 " ++ toString high ++ "/" ++ toString total
    ++ " assets have ESG scores ≥ 70"

/-- The environmental-leader insight string. -/
def envMsg (v : ValuedAsset) : String :=
  "🌱 Environmental Leader: " ++ v.name ++ " (" ++ fmtNum v.esg_e ++ "/100)"

/-- `get_esg_insights`: the four insight strings, in source order — best
ESG, worst ESG, count of scores ≥ 70, environmental leader.  On an empty
dataframe the first `idxmax` lookup fails and the whole call fails with
the pandas `ValueError`, there being no explicit emptiness guard. -/
def get_esg_insights (df : List ValuedAsset) :
    Except InsightFailure (List String) :=
  match idxmaxBy (fun v => v.esgScore) df with
  | none => Except.error InsightFailure.valueErrorEmptyIdxmax
  | some best_esg =>
    match idxminBy (fun v => v.esgScore) df with
    | none => Except.error InsightFailure.valueErrorEmptyIdxmax
    | some worst_esg =>
      match idxmaxBy (fun v => v.esg_e) df with
      | none => Except.error InsightFailure.valueErrorEmptyIdxmax
      | some env_leader =>
        let high_esg_count := (df.filter (fun v => v.esgScore ≥ 70)).length
        let total_count := df.length
        Except.ok [bestMsg best_esg, worstMsg worst_esg,
          countMsg high_esg_count total_count, envMsg env_leader]

/-- `y` is the first element of `l` attaining the maximum of `f`:
it occurs at some position `i`, no element beats it, and every element
strictly before position `i` is strictly below it. -/
def isFirstMaxBy {α : Type} (f : α → Rat) (l : List α) (y : α) : Prop :=
  ∃ i : Nat, l[i]? = some y ∧ (∀ v ∈ l, f v ≤ f y) ∧
    ∀ j x, j < i → l[j]? = some x → f x < f y

/-- `y` is the first element of `l` attaining the minimum of `f`. -/
def isFirstMinBy {α : Type} (f : α → Rat) (l : List α) (y : α) : Prop :=
  ∃ i : Nat, l[i]? = some y ∧ (∀ v ∈ l, f y ≤ f v) ∧
    ∀ j x, j < i → l[j]? = some x → f y < f x

/-- Position of a rating label in the ordering from best, "A+
(Excellent)", down to worst, "C (Poor)"; strings outside the table sit
below all six. -/
def ratingRank (label : String) : Nat :=
  if label = "A+ (Excellent)" then 0
  else if label = "A (Very Good)" then 1
  else if label = "B+ (Good)" then 2
  else if label = "B (Fair)" then 3
  else if label = "C+ (Below Average)" then 4
  else if label = "C (Poor)" then 5
  else 6

section Theorems

/-- `ratingRank ∘ categorize_esg_score`, fused into one threshold
cascade. -/
lemma rank_categorize (s : Rat) :
    ratingRank (categorize_esg_score s) =
      if s ≥ 80 then 0 else if s ≥ 70 then 1 else if s ≥ 60 then 2
      else if s ≥ 50 then 3 else if s ≥ 40 then 4 else 5 := by
  unfold categorize_esg_score
  split_ifs <;> decide

/-- Claim C10: `categorize_esg_score` is total over all rational scores:
every score gets one of the six labels, every score strictly below 40
(however negative) is rated "C (Poor)", and every score of 80 or above
(however large) is rated "A+ (Excellent)". -/
theorem categorize_esg_score_total :
    (∀ score : Rat,
      categorize_esg_score score = "A+ (Excellent)" ∨
      categorize_esg_score score = "A (Very Good)" ∨
      categorize_esg_score score = "B+ (Good)" ∨
      categorize_esg_score score = "B (Fair)" ∨
      categorize_esg_score score = "C+ (Below Average)" ∨
      categorize_esg_score score = "C (Poor)") ∧
    (∀ score : Rat, score < 40 → categorize_esg_score score = "C (Poor)") ∧
    (∀ score : Rat, 80 ≤ score →
      categorize_esg_score score = "A+ (Excellent)") := by
  refine ⟨fun s => ?_, fun s h => ?_, fun s h => ?_⟩ <;>
    unfold categorize_esg_score <;>
    split_ifs <;> first | tauto | linarith

/-- Claim C6: the rating is monotone in the score: a strictly higher
score never gets a strictly lower-ranked label. -/
theorem categorize_esg_score_monotone (x y : Rat) (h : y < x) :
    ratingRank (categorize_esg_score x)
      ≤ ratingRank (categorize_esg_score y) := by
  rw [rank_categorize, rank_categorize]
  split_ifs <;> first | omega | linarith

/-- Claim C6 witness: the monotonicity theorem at scores 85 and 30. -/
theorem categorize_esg_score_monotone_witness :
    (30 : Rat) < 85 ∧
      ratingRank (categorize_esg_score 85)
        ≤ ratingRank (categorize_esg_score 30) :=
  ⟨by norm_num, categorize_esg_score_monotone 85 30 (by norm_num)⟩

/-- Claim C2 counterexample: on the empty valued sequence,
`get_esg_insights` fails with the raw pandas `ValueError` of `idxmax` on
an empty series, which is not the explicit `EmptyInputError` the claim
asserts. -/
theorem get_esg_insights_empty_cex :
    get_esg_insights [] =
        Except.error InsightFailure.valueErrorEmptyIdxmax ∧
      InsightFailure.valueErrorEmptyIdxmax ≠
        InsightFailure.emptyInputError :=
  ⟨rfl, by decide⟩

/-- Claim C2 amended: on the empty valued sequence `get_esg_insights`
fails, but by crashing on the missing-maximum lookup (the unguarded
`idxmax` `ValueError`), not with an explicit `EmptyInputError` guard. -/
theorem get_esg_insights_empty_unguarded :
    get_esg_insights [] =
      Except.error InsightFailure.valueErrorEmptyIdxmax := rfl

/-- Membership in the inner join: exactly the rows built from a matching
price/ESG pair. -/
lemma mem_merge_iff {price_df : List PriceRecord} {esg_df : List EsgRecord}
    {a : MergedAsset} :
    a ∈ merge_price_and_esg price_df esg_df ↔
      ∃ p ∈ price_df, ∃ e ∈ esg_df,
        p.market = e.market ∧ a = mkMergedAsset p e := by
  unfold merge_price_and_esg
  constructor
  · intro h
    obtain ⟨l, hl, hal⟩ := List.mem_flatten.mp h
    obtain ⟨p, hp, rfl⟩ := List.mem_map.mp hl
    obtain ⟨e, he, hif⟩ := List.mem_filterMap.mp hal
    by_cases hm : p.market = e.market
    · rw [if_pos hm] at hif
      exact ⟨p, hp, e, he, hm, (Option.some_inj.mp hif).symm⟩
    · rw [if_neg hm] at hif
      exact absurd hif (Option.noConfusion)
  · rintro ⟨p, hp, e, he, hm, rfl⟩
    exact List.mem_flatten.mpr ⟨_, List.mem_map.mpr ⟨p, hp, rfl⟩,
      List.mem_filterMap.mpr ⟨e, he, by rw [if_pos hm]⟩⟩

/-- Claim C5: every asset in the join output carries
`esg_score = (esg_e + esg_s + esg_g) / 3` exactly, and its rating is the
threshold table evaluated top-down with the first match winning. -/
theorem merge_score_mean_and_rating (price_df : List PriceRecord)
    (esg_df : List EsgRecord) (a : MergedAsset)
    (ha : a ∈ merge_price_and_esg price_df esg_df) :
    a.esgScore = (a.esg_e + a.esg_s + a.esg_g) / 3 ∧
    a.esgRating = categorize_esg_score a.esgScore ∧
    (80 ≤ a.esgScore → a.esgRating = "A+ (Excellent)") ∧
    (70 ≤ a.esgScore → a.esgScore < 80 → a.esgRating = "A (Very Good)") ∧
    (60 ≤ a.esgScore → a.esgScore < 70 → a.esgRating = "B+ (Good)") ∧
    (50 ≤ a.esgScore → a.esgScore < 60 → a.esgRating = "B (Fair)") ∧
    (40 ≤ a.esgScore → a.esgScore < 50 →
      a.esgRating = "C+ (Below Average)") ∧
    (a.esgScore < 40 → a.esgRating = "C (Poor)") := by
  obtain ⟨p, _, e, _, _, rfl⟩ := mem_merge_iff.mp ha
  refine ⟨rfl, rfl, ?_, ?_, ?_, ?_, ?_, ?_⟩ <;>
    simp only [mkMergedAsset, compute_weighted_esg, categorize_esg_score] <;>
    intros <;> split_ifs <;> first | rfl | linarith

/-- Claim C5 witness: the score/rating theorem at a one-row join. -/
theorem merge_score_mean_and_rating_witness :
    mkMergedAsset ⟨"BTCUSDT", "50000"⟩ ⟨"BTCUSDT", "BTC", 40, 50, 60⟩ ∈
        merge_price_and_esg [⟨"BTCUSDT", "50000"⟩]
          [⟨"BTCUSDT", "BTC", 40, 50, 60⟩] ∧
      ((mkMergedAsset ⟨"BTCUSDT", "50000"⟩
          ⟨"BTCUSDT", "BTC", 40, 50, 60⟩).esgScore =
        ((mkMergedAsset ⟨"BTCUSDT", "50000"⟩
          ⟨"BTCUSDT", "BTC", 40, 50, 60⟩).esg_e +
         (mkMergedAsset ⟨"BTCUSDT", "50000"⟩
          ⟨"BTCUSDT", "BTC", 40, 50, 60⟩).esg_s +
         (mkMergedAsset ⟨"BTCUSDT", "50000"⟩
          ⟨"BTCUSDT", "BTC", 40, 50, 60⟩).esg_g) / 3 ∧
       (mkMergedAsset ⟨"BTCUSDT", "50000"⟩
          ⟨"BTCUSDT", "BTC", 40, 50, 60⟩).esgRating =
        categorize_esg_score
          (mkMergedAsset ⟨"BTCUSDT", "50000"⟩
            ⟨"BTCUSDT", "BTC", 40, 50, 60⟩).esgScore ∧
       (80 ≤ (mkMergedAsset ⟨"BTCUSDT", "50000"⟩
          ⟨"BTCUSDT", "BTC", 40, 50, 60⟩).esgScore →
        (mkMergedAsset ⟨"BTCUSDT", "50000"⟩
          ⟨"BTCUSDT", "BTC", 40, 50, 60⟩).esgRating = "A+ (Excellent)") ∧
       (70 ≤ (mkMergedAsset ⟨"BTCUSDT", "50000"⟩
          ⟨"BTCUSDT", "BTC", 40, 50, 60⟩).esgScore →
        (mkMergedAsset ⟨"BTCUSDT", "50000"⟩
          ⟨"BTCUSDT", "BTC", 40, 50, 60⟩).esgScore < 80 →
        (mkMergedAsset ⟨"BTCUSDT", "50000"⟩
          ⟨"BTCUSDT", "BTC", 40, 50, 60⟩).esgRating = "A (Very Good)") ∧
       (60 ≤ (mkMergedAsset ⟨"BTCUSDT", "50000"⟩
          ⟨"BTCUSDT", "BTC", 40, 50, 60⟩).esgScore →
        (mkMergedAsset ⟨"BTCUSDT", "50000"⟩
          ⟨"BTCUSDT", "BTC", 40, 50, 60⟩).esgScore < 70 →
        (mkMergedAsset ⟨"BTCUSDT", "50000"⟩
          ⟨"BTCUSDT", "BTC", 40, 50, 60⟩).esgRating = "B+ (Good)") ∧
       (50 ≤ (mkMergedAsset ⟨"BTCUSDT", "50000"⟩
          ⟨"BTCUSDT", "BTC", 40, 50, 60⟩).esgScore →
        (mkMergedAsset ⟨"BTCUSDT", "50000"⟩
          ⟨"BTCUSDT", "BTC", 40, 50, 60⟩).esgScore < 60 →
        (mkMergedAsset ⟨"BTCUSDT", "50000"⟩
          ⟨"BTCUSDT", "BTC", 40, 50, 60⟩).esgRating = "B (Fair)") ∧
       (40 ≤ (mkMergedAsset ⟨"BTCUSDT", "50000"⟩
          ⟨"BTCUSDT", "BTC", 40, 50, 60⟩).esgScore →
        (mkMergedAsset ⟨"BTCUSDT", "50000"⟩
          ⟨"BTCUSDT", "BTC", 40, 50, 60⟩).esgScore < 50 →
        (mkMergedAsset ⟨"BTCUSDT", "50000"⟩
          ⟨"BTCUSDT", "BTC", 40, 50, 60⟩).esgRating =
          "C+ (Below Average)") ∧
       ((mkMergedAsset ⟨"BTCUSDT", "50000"⟩
          ⟨"BTCUSDT", "BTC", 40, 50, 60⟩).esgScore < 40 →
        (mkMergedAsset ⟨"BTCUSDT", "50000"⟩
          ⟨"BTCUSDT", "BTC", 40, 50, 60⟩).esgRating = "C (Poor)")) :=
  ⟨by rw [mem_merge_iff]; exact ⟨_, List.mem_singleton.mpr rfl, _,
      List.mem_singleton.mpr rfl, rfl, rfl⟩,
   merge_score_mean_and_rating _ _ _
     (by rw [mem_merge_iff]; exact ⟨_, List.mem_singleton.mpr rfl, _,
       List.mem_singleton.mpr rfl, rfl, rfl⟩)⟩

/-- Claim C1 counterexample: a price row whose `last_price` is the
non-numeric string "abc" and whose symbol has an ESG entry is NOT
excluded: the join output is exactly one asset, carrying the missing
price sentinel. -/
theorem merge_missing_price_retained_cex :
    to_numeric "abc" = none ∧
      (merge_price_and_esg [⟨"AAAUSDT", "abc"⟩]
          [⟨"AAAUSDT", "AAA", 50, 50, 50⟩]).map
        (fun a => (a.market, a.last_price)) = [("AAAUSDT", none)] := by
  constructor
  · simp +decide [to_numeric, splitFrac]
  · simp +decide [merge_price_and_esg, mkMergedAsset, to_numeric, splitFrac]

/-- Claim C1 amended: non-numeric `last_price` values are coerced to the
missing sentinel but the records are retained, not excluded: whenever a
price row's symbol matches an ESG entry, the joined row is in the output
with `last_price = to_numeric` of the raw cell — even when that is the
missing sentinel. -/
theorem merge_retains_coerced_rows (price_df : List PriceRecord)
    (esg_df : List EsgRecord) (p : PriceRecord) (e : EsgRecord)
    (hp : p ∈ price_df) (he : e ∈ esg_df) (hm : p.market = e.market) :
    mkMergedAsset p e ∈ merge_price_and_esg price_df esg_df ∧
      (mkMergedAsset p e).last_price = to_numeric p.last_price :=
  ⟨mem_merge_iff.mpr ⟨p, hp, e, he, hm, rfl⟩, rfl⟩

/-- Claim C1 amended witness: the retained-row theorem at the "abc"
price. -/
theorem merge_retains_coerced_rows_witness :
    (⟨"AAAUSDT", "abc"⟩ : PriceRecord) ∈ [(⟨"AAAUSDT", "abc"⟩ : PriceRecord)] ∧
    (⟨"AAAUSDT", "AAA", 50, 50, 50⟩ : EsgRecord) ∈
      [(⟨"AAAUSDT", "AAA", 50, 50, 50⟩ : EsgRecord)] ∧
    (⟨"AAAUSDT", "abc"⟩ : PriceRecord).market =
      (⟨"AAAUSDT", "AAA", 50, 50, 50⟩ : EsgRecord).market ∧
    (mkMergedAsset ⟨"AAAUSDT", "abc"⟩ ⟨"AAAUSDT", "AAA", 50, 50, 50⟩ ∈
        merge_price_and_esg [⟨"AAAUSDT", "abc"⟩]
          [⟨"AAAUSDT", "AAA", 50, 50, 50⟩] ∧
      (mkMergedAsset ⟨"AAAUSDT", "abc"⟩
          ⟨"AAAUSDT", "AAA", 50, 50, 50⟩).last_price =
        to_numeric (⟨"AAAUSDT", "abc"⟩ : PriceRecord).last_price) :=
  ⟨List.mem_singleton.mpr rfl, List.mem_singleton.mpr rfl, rfl,
    merge_retains_coerced_rows _ _ _ _ (List.mem_singleton.mpr rfl)
      (List.mem_singleton.mpr rfl) rfl⟩

/-- Claim C4: whenever the total portfolio value is 0, the guard forces
all four weighted metrics to 0: the division by `total_value` never runs
with a zero divisor. -/
theorem zero_total_value_guard (df : List MergedAsset)
    (holdings_dict : Option (List (String × Rat)))
    (h : (calculate_portfolio_metrics df holdings_dict).2.total_value = 0) :
    (calculate_portfolio_metrics df holdings_dict).2.weighted_esg = 0 ∧
    (calculate_portfolio_metrics df
      holdings_dict).2.weighted_environmental = 0 ∧
    (calculate_portfolio_metrics df holdings_dict).2.weighted_social = 0 ∧
    (calculate_portfolio_metrics df
      holdings_dict).2.weighted_governance = 0 := by
  simp only [calculate_portfolio_metrics] at h ⊢
  rw [h]
  norm_num

/-- Claim C4 witness: the zero-total guard on an empty merged table. -/
theorem zero_total_value_guard_witness :
    (calculate_portfolio_metrics [] none).2.total_value = 0 ∧
      ((calculate_portfolio_metrics [] none).2.weighted_esg = 0 ∧
       (calculate_portfolio_metrics [] none).2.weighted_environmental = 0 ∧
       (calculate_portfolio_metrics [] none).2.weighted_social = 0 ∧
       (calculate_portfolio_metrics [] none).2.weighted_governance = 0) :=
  ⟨rfl, zero_total_value_guard [] none rfl⟩

/-- Claim C9: the valued table keeps the merged rows in order, with every
merged column unchanged; only `Holding` (the map's quantity, 0 when the
symbol is absent, with the built-in sample map substituted when no map is
supplied) and `Value (USD) = Holding * last_price` are added. -/
theorem portfolio_frame (df : List MergedAsset)
    (holdings_dict : Option (List (String × Rat))) :
    ((calculate_portfolio_metrics df holdings_dict).1).map
        (fun v => v.toMergedAsset) = df ∧
    ∀ v ∈ (calculate_portfolio_metrics df holdings_dict).1,
      v.holding =
          (((holdings_dict.getD sample_holdings).lookup v.market).getD 0) ∧
        v.value_usd = v.last_price.map (fun p => v.holding * p) := by
  constructor
  · simp only [calculate_portfolio_metrics, List.map_map]
    exact List.map_id df
  · intro v hv
    simp only [calculate_portfolio_metrics, List.mem_map] at hv
    obtain ⟨m, _, rfl⟩ := hv
    exact ⟨rfl, rfl⟩

/-- A symbol with no ESG entry contributes nothing to its join block. -/
lemma block_eq_nil_of_not_mem (p : PriceRecord) (es : List EsgRecord)
    (h : p.market ∉ es.map EsgRecord.market) :
    es.filterMap (fun e =>
      if p.market = e.market then some (mkMergedAsset p e) else none)
      = [] := by
  induction es with
  | nil => rfl
  | cons e es ih =>
    simp only [List.map_cons, List.mem_cons, not_or] at h
    simp only [List.filterMap_cons, if_neg h.1]
    exact ih h.2

/-- With unique ESG symbols, one price row's join block carries its
market exactly once when the ESG table covers it, otherwise nothing. -/
lemma block_markets (p : PriceRecord) (esg_df : List EsgRecord)
    (he : (esg_df.map EsgRecord.market).Nodup) :
    (esg_df.filterMap (fun e =>
        if p.market = e.market then some (mkMergedAsset p e) else none)).map
        MergedAsset.market
      = if p.market ∈ esg_df.map EsgRecord.market then [p.market]
        else [] := by
  induction esg_df with
  | nil => rfl
  | cons e es ih =>
    simp only [List.map_cons, List.nodup_cons] at he
    by_cases hm : p.market = e.market
    · have hne : p.market ∉ es.map EsgRecord.market := hm ▸ he.1
      have hmem : p.market ∈ (e :: es).map EsgRecord.market := by
        rw [List.map_cons, hm]
        exact List.mem_cons_self _ _
      rw [@List.filterMap_cons_some EsgRecord MergedAsset
          (fun e => if p.market = e.market then some (mkMergedAsset p e)
            else none) e es (mkMergedAsset p e) (if_pos hm),
        block_eq_nil_of_not_mem p es hne, if_pos hmem]
      simp [mkMergedAsset]
    · simp only [List.filterMap_cons, if_neg hm]
      rw [ih he.2]
      simp [List.mem_cons, hm]

/-- `merge_price_and_esg` splits its first row off as one block. -/
lemma merge_cons (p : PriceRecord) (ps : List PriceRecord)
    (esg_df : List EsgRecord) :
    merge_price_and_esg (p :: ps) esg_df =
      (esg_df.filterMap (fun e =>
        if p.market = e.market then some (mkMergedAsset p e) else none))
        ++ merge_price_and_esg ps esg_df := rfl

/-- With unique ESG symbols, the joined markets are the price markets
filtered down to those the ESG table covers, in price order. -/
lemma merge_markets (price_df : List PriceRecord)
    (esg_df : List EsgRecord)
    (he : (esg_df.map EsgRecord.market).Nodup) :
    (merge_price_and_esg price_df esg_df).map MergedAsset.market
      = (price_df.map PriceRecord.market).filter
          (fun m => decide (m ∈ esg_df.map EsgRecord.market)) := by
  induction price_df with
  | nil => rfl
  | cons p ps ih =>
    rw [merge_cons, List.map_append, block_markets p esg_df he, ih,
      List.map_cons, List.filter_cons]
    by_cases hm : p.market ∈ esg_df.map EsgRecord.market
    · simp [hm]
    · simp [hm]

/-- Claim C3: with symbols unique in each table, the join has exactly
one asset per shared symbol: its length is the cardinality of the symbol
intersection, its symbols are distinct, a symbol appears in the output
iff it appears in both inputs, and an empty table on either side gives
an empty join. -/
theorem merge_join_correct (price_df : List PriceRecord)
    (esg_df : List EsgRecord)
    (hp : (price_df.map PriceRecord.market).Nodup)
    (he : (esg_df.map EsgRecord.market).Nodup) :
    (merge_price_and_esg price_df esg_df).length
        = ((price_df.map PriceRecord.market).toFinset
            ∩ (esg_df.map EsgRecord.market).toFinset).card ∧
    ((merge_price_and_esg price_df esg_df).map MergedAsset.market).Nodup ∧
    (∀ m : String,
      m ∈ (merge_price_and_esg price_df esg_df).map MergedAsset.market ↔
        m ∈ price_df.map PriceRecord.market ∧
          m ∈ esg_df.map EsgRecord.market) ∧
    merge_price_and_esg [] esg_df = [] ∧
    merge_price_and_esg price_df [] = [] := by
  have hmk := merge_markets price_df esg_df he
  refine ⟨?_, ?_, ?_, rfl, ?_⟩
  · have h1 : (merge_price_and_esg price_df esg_df).length
        = ((price_df.map PriceRecord.market).filter
            (fun m => decide (m ∈ esg_df.map EsgRecord.market))).length := by
      rw [← hmk, List.length_map]
    rw [h1, ← List.toFinset_card_of_nodup (hp.filter _)]
    congr 1
    ext m
    simp [List.mem_toFinset, List.mem_filter, Finset.mem_inter]
  · rw [hmk]
    exact hp.filter _
  · intro m
    rw [hmk]
    simp [List.mem_filter]
  · simp [merge_price_and_esg]

/-- Claim C3 witness: the join-correctness theorem on the three-price /
two-ESG scenario: the join has the two shared symbols. -/
theorem merge_join_correct_witness :
    ((([⟨"BTCUSDT", "50000"⟩, ⟨"ETHUSDT", "3000"⟩, ⟨"XRPUSDT", "1"⟩] :
        List PriceRecord).map PriceRecord.market).Nodup ∧
     (([⟨"BTCUSDT", "BTC", 40, 40, 40⟩, ⟨"ETHUSDT", "ETH", 70, 70, 70⟩] :
        List EsgRecord).map EsgRecord.market).Nodup) ∧
    ((merge_price_and_esg
        [⟨"BTCUSDT", "50000"⟩, ⟨"ETHUSDT", "3000"⟩, ⟨"XRPUSDT", "1"⟩]
        [⟨"BTCUSDT", "BTC", 40, 40, 40⟩,
         ⟨"ETHUSDT", "ETH", 70, 70, 70⟩]).length
        = ((([⟨"BTCUSDT", "50000"⟩, ⟨"ETHUSDT", "3000"⟩, ⟨"XRPUSDT", "1"⟩] :
              List PriceRecord).map PriceRecord.market).toFinset
            ∩ (([⟨"BTCUSDT", "BTC", 40, 40, 40⟩,
                ⟨"ETHUSDT", "ETH", 70, 70, 70⟩] :
              List EsgRecord).map EsgRecord.market).toFinset).card ∧
      ((merge_price_and_esg
          [⟨"BTCUSDT", "50000"⟩, ⟨"ETHUSDT", "3000"⟩, ⟨"XRPUSDT", "1"⟩]
          [⟨"BTCUSDT", "BTC", 40, 40, 40⟩,
           ⟨"ETHUSDT", "ETH", 70, 70, 70⟩]).map MergedAsset.market).Nodup ∧
      (∀ m : String,
        m ∈ (merge_price_and_esg
            [⟨"BTCUSDT", "50000"⟩, ⟨"ETHUSDT", "3000"⟩, ⟨"XRPUSDT", "1"⟩]
            [⟨"BTCUSDT", "BTC", 40, 40, 40⟩,
             ⟨"ETHUSDT", "ETH", 70, 70, 70⟩]).map MergedAsset.market ↔
          m ∈ ([⟨"BTCUSDT", "50000"⟩, ⟨"ETHUSDT", "3000"⟩,
              ⟨"XRPUSDT", "1"⟩] :
            List PriceRecord).map PriceRecord.market ∧
            m ∈ ([⟨"BTCUSDT", "BTC", 40, 40, 40⟩,
                ⟨"ETHUSDT", "ETH", 70, 70, 70⟩] :
              List EsgRecord).map EsgRecord.market) ∧
      merge_price_and_esg []
        [⟨"BTCUSDT", "BTC", 40, 40, 40⟩,
         ⟨"ETHUSDT", "ETH", 70, 70, 70⟩] = [] ∧
      merge_price_and_esg
        [⟨"BTCUSDT", "50000"⟩, ⟨"ETHUSDT", "3000"⟩, ⟨"XRPUSDT", "1"⟩]
        [] = []) :=
  ⟨⟨by decide, by decide⟩,
    merge_join_correct _ _ (by decide) (by decide)⟩

/-- `idxmaxBy` finds nothing exactly on the empty list (where pandas
raises). -/
lemma idxmaxBy_eq_none {α : Type} (f : α → Rat) (l : List α) :
    idxmaxBy f l = none ↔ l = [] := by
  cases l with
  | nil => simp [idxmaxBy]
  | cons x xs =>
    simp only [idxmaxBy]
    cases h : idxmaxBy f xs <;> simp

/-- `idxminBy` finds nothing exactly on the empty list. -/
lemma idxminBy_eq_none {α : Type} (f : α → Rat) (l : List α) :
    idxminBy f l = none ↔ l = [] := by
  cases l with
  | nil => simp [idxminBy]
  | cons x xs =>
    simp only [idxminBy]
    cases h : idxminBy f xs <;> simp

/-- What `idxmaxBy` returns is the first element attaining the maximum:
ties are broken by input order, first occurrence wins. -/
lemma idxmaxBy_spec {α : Type} (f : α → Rat) :
    ∀ (l : List α) (y : α), idxmaxBy f l = some y → isFirstMaxBy f l y := by
  intro l
  induction l with
  | nil => intro y h; simp [idxmaxBy] at h
  | cons x xs ih =>
    intro y h
    simp only [idxmaxBy] at h
    cases hr : idxmaxBy f xs with
    | none =>
      rw [hr] at h
      obtain rfl : x = y := Option.some_inj.mp h
      have hxs : xs = [] := (idxmaxBy_eq_none f xs).mp hr
      subst hxs
      refine ⟨0, rfl, ?_, ?_⟩
      · intro v hv
        rcases List.mem_singleton.mp hv with rfl
        exact le_refl _
      · intro j z hj _
        omega
    | some m =>
      rw [hr] at h
      have h2 : some (if f m > f x then m else x) = some y := h
      obtain ⟨i, hget, hmax, hfirst⟩ := ih m hr
      by_cases hc : f m > f x
      · rw [if_pos hc] at h2
        obtain rfl : m = y := Option.some_inj.mp h2
        refine ⟨i + 1, ?_, ?_, ?_⟩
        · simpa using hget
        · intro v hv
          rcases List.mem_cons.mp hv with rfl | hv
          · exact le_of_lt hc
          · exact hmax v hv
        · intro j z hj hz
          cases j with
          | zero =>
            rw [List.getElem?_cons_zero] at hz
            obtain rfl : x = z := Option.some_inj.mp hz
            exact hc
          | succ k =>
            rw [List.getElem?_cons_succ] at hz
            exact hfirst k z (Nat.succ_lt_succ_iff.mp hj) hz
      · rw [if_neg hc] at h2
        obtain rfl : x = y := Option.some_inj.mp h2
        refine ⟨0, List.getElem?_cons_zero, ?_, ?_⟩
        · intro v hv
          rcases List.mem_cons.mp hv with rfl | hv
          · exact le_refl _
          · exact le_trans (hmax v hv) (not_lt.mp hc)
        · intro j z hj _
          omega

/-- What `idxminBy` returns is the first element attaining the
minimum. -/
lemma idxminBy_spec {α : Type} (f : α → Rat) :
    ∀ (l : List α) (y : α), idxminBy f l = some y → isFirstMinBy f l y := by
  intro l
  induction l with
  | nil => intro y h; simp [idxminBy] at h
  | cons x xs ih =>
    intro y h
    simp only [idxminBy] at h
    cases hr : idxminBy f xs with
    | none =>
      rw [hr] at h
      obtain rfl : x = y := Option.some_inj.mp h
      have hxs : xs = [] := (idxminBy_eq_none f xs).mp hr
      subst hxs
      refine ⟨0, rfl, ?_, ?_⟩
      · intro v hv
        rcases List.mem_singleton.mp hv with rfl
        exact le_refl _
      · intro j z hj _
        omega
    | some m =>
      rw [hr] at h
      have h2 : some (if f m < f x then m else x) = some y := h
      obtain ⟨i, hget, hmin, hfirst⟩ := ih m hr
      by_cases hc : f m < f x
      · rw [if_pos hc] at h2
        obtain rfl : m = y := Option.some_inj.mp h2
        refine ⟨i + 1, ?_, ?_, ?_⟩
        · simpa using hget
        · intro v hv
          rcases List.mem_cons.mp hv with rfl | hv
          · exact le_of_lt hc
          · exact hmin v hv
        · intro j z hj hz
          cases j with
          | zero =>
            rw [List.getElem?_cons_zero] at hz
            obtain rfl : x = z := Option.some_inj.mp hz
            exact hc
          | succ k =>
            rw [List.getElem?_cons_succ] at hz
            exact hfirst k z (Nat.succ_lt_succ_iff.mp hj) hz
      · rw [if_neg hc] at h2
        obtain rfl : x = y := Option.some_inj.mp h2
        refine ⟨0, List.getElem?_cons_zero, ?_, ?_⟩
        · intro v hv
          rcases List.mem_cons.mp hv with rfl | hv
          · exact le_refl _
          · exact le_trans (not_lt.mp hc) (hmin v hv)
        · intro j z hj _
          omega

/-- Claim C8: on a non-empty valued table, `get_esg_insights` returns
exactly four strings in the order best-ESG, worst-ESG, threshold-count,
environmental-leader; the best (resp. worst) message names the first
asset attaining the maximal (resp. minimal) `esg_score`, the count is
the number of assets scoring ≥ 70 out of the total, and the
environmental leader is the first asset attaining the maximal `esg_e`,
independent of its overall score. -/
theorem get_esg_insights_spec (df : List ValuedAsset) (h : df ≠ []) :
    ∃ b w ev,
      get_esg_insights df = Except.ok
        [bestMsg b, worstMsg w,
         countMsg ((df.filter (fun v => v.esgScore ≥ 70)).length) df.length,
         envMsg ev] ∧
      isFirstMaxBy (fun v => v.esgScore) df b ∧
      isFirstMinBy (fun v => v.esgScore) df w ∧
      isFirstMaxBy (fun v => v.esg_e) df ev := by
  have hb : ∃ b, idxmaxBy (fun v : ValuedAsset => v.esgScore) df = some b := by
    cases hx : idxmaxBy (fun v : ValuedAsset => v.esgScore) df with
    | none => exact absurd ((idxmaxBy_eq_none _ df).mp hx) h
    | some b => exact ⟨b, rfl⟩
  have hw : ∃ w, idxminBy (fun v : ValuedAsset => v.esgScore) df = some w := by
    cases hx : idxminBy (fun v : ValuedAsset => v.esgScore) df with
    | none => exact absurd ((idxminBy_eq_none _ df).mp hx) h
    | some w => exact ⟨w, rfl⟩
  have hev : ∃ ev, idxmaxBy (fun v : ValuedAsset => v.esg_e) df = some ev := by
    cases hx : idxmaxBy (fun v : ValuedAsset => v.esg_e) df with
    | none => exact absurd ((idxmaxBy_eq_none _ df).mp hx) h
    | some ev => exact ⟨ev, rfl⟩
  obtain ⟨b, hb⟩ := hb
  obtain ⟨w, hw⟩ := hw
  obtain ⟨ev, hev⟩ := hev
  refine ⟨b, w, ev, ?_, idxmaxBy_spec _ df b hb, idxminBy_spec _ df w hw,
    idxmaxBy_spec _ df ev hev⟩
  simp only [get_esg_insights, hb, hw, hev]

/-- Claim C8 witness: the insight-contract theorem on a concrete
two-asset table. -/
theorem get_esg_insights_spec_witness :
    ([⟨⟨"BTCUSDT", "BTC", some 50000, 40, 40, 40, 40,
        "C+ (Below Average)"⟩, 1, some 50000⟩,
      ⟨⟨"ETHUSDT", "ETH", some 3000, 70, 70, 70, 70,
        "A (Very Good)"⟩, 1, some 3000⟩] : List ValuedAsset) ≠ [] ∧
    (∃ b w ev,
      get_esg_insights
        [⟨⟨"BTCUSDT", "BTC", some 50000, 40, 40, 40, 40,
            "C+ (Below Average)"⟩, 1, some 50000⟩,
         ⟨⟨"ETHUSDT", "ETH", some 3000, 70, 70, 70, 70,
            "A (Very Good)"⟩, 1, some 3000⟩] = Except.ok
        [bestMsg b, worstMsg w,
         countMsg ((([⟨⟨"BTCUSDT", "BTC", some 50000, 40, 40, 40, 40,
              "C+ (Below Average)"⟩, 1, some 50000⟩,
            ⟨⟨"ETHUSDT", "ETH", some 3000, 70, 70, 70, 70,
              "A (Very Good)"⟩, 1, some 3000⟩] :
            List ValuedAsset).filter
              (fun v => v.esgScore ≥ 70)).length)
           ([⟨⟨"BTCUSDT", "BTC", some 50000, 40, 40, 40, 40,
              "C+ (Below Average)"⟩, 1, some 50000⟩,
            ⟨⟨"ETHUSDT", "ETH", some 3000, 70, 70, 70, 70,
              "A (Very Good)"⟩, 1, some 3000⟩] :
            List ValuedAsset).length,
         envMsg ev] ∧
      isFirstMaxBy (fun v => v.esgScore)
        [⟨⟨"BTCUSDT", "BTC", some 50000, 40, 40, 40, 40,
            "C+ (Below Average)"⟩, 1, some 50000⟩,
         ⟨⟨"ETHUSDT", "ETH", some 3000, 70, 70, 70, 70,
            "A (Very Good)"⟩, 1, some 3000⟩] b ∧
      isFirstMinBy (fun v => v.esgScore)
        [⟨⟨"BTCUSDT", "BTC", some 50000, 40, 40, 40, 40,
            "C+ (Below Average)"⟩, 1, some 50000⟩,
         ⟨⟨"ETHUSDT", "ETH", some 3000, 70, 70, 70, 70,
            "A (Very Good)"⟩, 1, some 3000⟩] w ∧
      isFirstMaxBy (fun v => v.esg_e)
        [⟨⟨"BTCUSDT", "BTC", some 50000, 40, 40, 40, 40,
            "C+ (Below Average)"⟩, 1, some 50000⟩,
         ⟨⟨"ETHUSDT", "ETH", some 3000, 70, 70, 70, 70,
            "A (Very Good)"⟩, 1, some 3000⟩] ev) :=
  ⟨by simp, get_esg_insights_spec _ (by simp)⟩

lemma nanSum_nil : nanSum [] = 0 := rfl

lemma nanSum_cons_none (t : List (Option Rat)) :
    nanSum (none :: t) = nanSum t := rfl

lemma nanSum_cons_some (x : Rat) (t : List (Option Rat)) :
    nanSum (some x :: t) = x + nanSum t := by
  simp [nanSum]

/-- The record fields `mkValuedAsset` fills in, spelled out. -/
lemma mkValuedAsset_fields (hd : List (String × Rat)) (m : MergedAsset) :
    (mkValuedAsset hd m).holding = (hd.lookup m.market).getD 0 ∧
    (mkValuedAsset hd m).value_usd
      = m.last_price.map (fun p => (hd.lookup m.market).getD 0 * p) ∧
    (mkValuedAsset hd m).toMergedAsset = m :=
  ⟨rfl, rfl, rfl⟩

/-- Numerator bound: with non-negative weights whose strictly positive
instances carry `f` at most `hi`, the weighted NaN-skipping sum is at
most `hi` times the weight sum. -/
lemma weighted_nanSum_le (f : ValuedAsset → Rat) (hi : Rat) :
    ∀ (l : List ValuedAsset),
      (∀ v ∈ l, ∀ x, v.value_usd = some x → 0 ≤ x) →
      (∀ v ∈ l, ∀ x, v.value_usd = some x → 0 < x → f v ≤ hi) →
      nanSum (l.map (fun v => v.value_usd.map (fun x => f v * x)))
        ≤ hi * nanSum (l.map (fun v => v.value_usd)) := by
  intro l
  induction l with
  | nil =>
    intro _ _
    simp [nanSum]
  | cons v t ih =>
    intro h0 hb
    have iht := ih (fun w hw => h0 w (List.mem_cons_of_mem _ hw))
      (fun w hw => hb w (List.mem_cons_of_mem _ hw))
    cases hv : v.value_usd with
    | none =>
      simp only [List.map_cons, hv, Option.map_none', nanSum_cons_none]
      exact iht
    | some x =>
      simp only [List.map_cons, hv, Option.map_some', nanSum_cons_some]
      have hx0 : 0 ≤ x := h0 v (List.mem_cons_self _ _) x hv
      have hfx : f v * x ≤ hi * x := by
        rcases eq_or_lt_of_le hx0 with heq | hlt
        · rw [← heq, mul_zero, mul_zero]
        · exact mul_le_mul_of_nonneg_right
            (hb v (List.mem_cons_self _ _) x hv hlt) (le_of_lt hlt)
      rw [mul_add]
      exact add_le_add hfx iht

/-- Numerator bound from below, dually. -/
lemma le_weighted_nanSum (f : ValuedAsset → Rat) (lo : Rat) :
    ∀ (l : List ValuedAsset),
      (∀ v ∈ l, ∀ x, v.value_usd = some x → 0 ≤ x) →
      (∀ v ∈ l, ∀ x, v.value_usd = some x → 0 < x → lo ≤ f v) →
      lo * nanSum (l.map (fun v => v.value_usd))
        ≤ nanSum (l.map (fun v => v.value_usd.map (fun x => f v * x))) := by
  intro l
  induction l with
  | nil =>
    intro _ _
    simp [nanSum]
  | cons v t ih =>
    intro h0 hb
    have iht := ih (fun w hw => h0 w (List.mem_cons_of_mem _ hw))
      (fun w hw => hb w (List.mem_cons_of_mem _ hw))
    cases hv : v.value_usd with
    | none =>
      simp only [List.map_cons, hv, Option.map_none', nanSum_cons_none]
      exact iht
    | some x =>
      simp only [List.map_cons, hv, Option.map_some', nanSum_cons_some]
      have hx0 : 0 ≤ x := h0 v (List.mem_cons_self _ _) x hv
      have hfx : lo * x ≤ f v * x := by
        rcases eq_or_lt_of_le hx0 with heq | hlt
        · rw [← heq, mul_zero, mul_zero]
        · exact mul_le_mul_of_nonneg_right
            (hb v (List.mem_cons_self _ _) x hv hlt) (le_of_lt hlt)
      rw [mul_add]
      exact add_le_add hfx iht

/-- Upper bound on a value-weighted average over a NaN-skipping sum. -/
lemma wavg_le (l : List ValuedAsset) (f : ValuedAsset → Rat) (hi : Rat)
    (h0 : ∀ v ∈ l, ∀ x, v.value_usd = some x → 0 ≤ x)
    (hhi : ∀ v ∈ l, ∀ x, v.value_usd = some x → 0 < x → f v ≤ hi)
    (htot : 0 < nanSum (l.map (fun v => v.value_usd))) :
    nanSum (l.map (fun v => v.value_usd.map (fun x => f v * x)))
        / nanSum (l.map (fun v => v.value_usd)) ≤ hi := by
  rw [div_le_iff₀ htot]
  exact weighted_nanSum_le f hi l h0 hhi

/-- Lower bound on a value-weighted average over a NaN-skipping sum. -/
lemma le_wavg (l : List ValuedAsset) (f : ValuedAsset → Rat) (lo : Rat)
    (h0 : ∀ v ∈ l, ∀ x, v.value_usd = some x → 0 ≤ x)
    (hlo : ∀ v ∈ l, ∀ x, v.value_usd = some x → 0 < x → lo ≤ f v)
    (htot : 0 < nanSum (l.map (fun v => v.value_usd))) :
    lo ≤ nanSum (l.map (fun v => v.value_usd.map (fun x => f v * x)))
        / nanSum (l.map (fun v => v.value_usd)) := by
  rw [le_div_iff₀ htot]
  exact le_weighted_nanSum f lo l h0 hlo

/-- Claim C7 counterexample: one merged asset with positive holding but
price 0: its score is 50, so the claimed interval is [50, 50], yet the
zero-total guard forces `weighted_esg` to 0 — outside the interval.  The
claim as stated (for every merged table and holdings map) is false. -/
theorem weighted_metrics_bounded_cex :
    ((calculate_portfolio_metrics
        [⟨"AAAUSDT", "AAA", some 0, 50, 50, 50, 50, "B (Fair)"⟩]
        (some [("AAAUSDT", 1)])).1.map
      (fun v => (v.holding, v.esgScore)) = [(1, 50)]) ∧
    (calculate_portfolio_metrics
        [⟨"AAAUSDT", "AAA", some 0, 50, 50, 50, 50, "B (Fair)"⟩]
        (some [("AAAUSDT", 1)])).2.weighted_esg = 0 ∧
    ¬(50 ≤ (calculate_portfolio_metrics
        [⟨"AAAUSDT", "AAA", some 0, 50, 50, 50, 50, "B (Fair)"⟩]
        (some [("AAAUSDT", 1)])).2.weighted_esg) := by
  refine ⟨?_, ?_, ?_⟩ <;>
    simp [calculate_portfolio_metrics, mkValuedAsset, nanSum]

/-- Claim C7 amended: provided prices and holdings are non-negative and
the total portfolio value is positive, each of the four weighted metrics
lies within any interval `[lo, hi]` that contains the corresponding
per-asset score of every asset with positive holding — in particular
within `[min, max]` of those scores.  (The claim as stated also asserts
this when `total_value = 0`, where the guard returns 0 instead.) -/
theorem weighted_metrics_bounded (df : List MergedAsset)
    (holdings_dict : Option (List (String × Rat)))
    (lo1 hi1 lo2 hi2 lo3 hi3 lo4 hi4 : Rat)
    (hprice : ∀ a ∈ df, ∀ p : Rat, a.last_price = some p → 0 ≤ p)
    (hhold : ∀ x ∈ holdings_dict.getD sample_holdings, 0 ≤ x.2)
    (htot : 0 < (calculate_portfolio_metrics df holdings_dict).2.total_value)
    (hbound : ∀ v ∈ (calculate_portfolio_metrics df holdings_dict).1,
      0 < v.holding →
        lo1 ≤ v.esgScore ∧ v.esgScore ≤ hi1 ∧
        lo2 ≤ v.esg_e ∧ v.esg_e ≤ hi2 ∧
        lo3 ≤ v.esg_s ∧ v.esg_s ≤ hi3 ∧
        lo4 ≤ v.esg_g ∧ v.esg_g ≤ hi4) :
    (lo1 ≤ (calculate_portfolio_metrics df holdings_dict).2.weighted_esg ∧
      (calculate_portfolio_metrics df holdings_dict).2.weighted_esg ≤ hi1) ∧
    (lo2 ≤ (calculate_portfolio_metrics df
        holdings_dict).2.weighted_environmental ∧
      (calculate_portfolio_metrics df
        holdings_dict).2.weighted_environmental ≤ hi2) ∧
    (lo3 ≤ (calculate_portfolio_metrics df holdings_dict).2.weighted_social ∧
      (calculate_portfolio_metrics df
        holdings_dict).2.weighted_social ≤ hi3) ∧
    (lo4 ≤ (calculate_portfolio_metrics df
        holdings_dict).2.weighted_governance ∧
      (calculate_portfolio_metrics df
        holdings_dict).2.weighted_governance ≤ hi4) := by
  have hold_nonneg : ∀ m : MergedAsset,
      0 ≤ ((holdings_dict.getD sample_holdings).lookup m.market).getD 0 := by
    intro m
    cases hq : (holdings_dict.getD sample_holdings).lookup m.market with
    | none => simp
    | some q =>
      obtain ⟨l1, l2, hsplit, -⟩ := List.lookup_eq_some_iff.mp hq
      have hmem : (m.market, q) ∈ holdings_dict.getD sample_holdings := by
        rw [hsplit]
        exact List.mem_append_right _ (List.mem_cons_self _ _)
      simpa using hhold _ hmem
  have h0 : ∀ v ∈ df.map (mkValuedAsset (holdings_dict.getD sample_holdings)),
      ∀ x, v.value_usd = some x → 0 ≤ x := by
    intro v hv x hx
    obtain ⟨m, hm, rfl⟩ := List.mem_map.mp hv
    rw [(mkValuedAsset_fields _ m).2.1] at hx
    cases hp : m.last_price with
    | none => rw [hp] at hx; simp at hx
    | some p =>
      rw [hp] at hx
      obtain rfl := Option.some_inj.mp hx
      exact mul_nonneg (hold_nonneg m) (hprice m hm p hp)
  have hpos : ∀ v ∈ df.map (mkValuedAsset (holdings_dict.getD sample_holdings)),
      ∀ x, v.value_usd = some x → 0 < x → 0 < v.holding := by
    intro v hv x hx hxpos
    obtain ⟨m, hm, rfl⟩ := List.mem_map.mp hv
    rw [(mkValuedAsset_fields _ m).1]
    rcases lt_or_eq_of_le (hold_nonneg m) with h | h
    · exact h
    · exfalso
      rw [(mkValuedAsset_fields _ m).2.1] at hx
      cases hp : m.last_price with
      | none => rw [hp] at hx; simp at hx
      | some p =>
        rw [hp] at hx
        obtain rfl := Option.some_inj.mp hx
        rw [← h] at hxpos
        simp at hxpos
  have htot' : 0 < nanSum
      ((df.map (mkValuedAsset (holdings_dict.getD sample_holdings))).map
        (fun v => v.value_usd)) := htot
  have hb : ∀ v ∈ df.map (mkValuedAsset (holdings_dict.getD sample_holdings)),
      0 < v.holding →
        lo1 ≤ v.esgScore ∧ v.esgScore ≤ hi1 ∧
        lo2 ≤ v.esg_e ∧ v.esg_e ≤ hi2 ∧
        lo3 ≤ v.esg_s ∧ v.esg_s ≤ hi3 ∧
        lo4 ≤ v.esg_g ∧ v.esg_g ≤ hi4 := hbound
  have hmetrics :
      (calculate_portfolio_metrics df holdings_dict).2.weighted_esg
        = nanSum ((df.map (mkValuedAsset
              (holdings_dict.getD sample_holdings))).map
            (fun v => v.value_usd.map (fun x => v.esgScore * x)))
          / nanSum ((df.map (mkValuedAsset
              (holdings_dict.getD sample_holdings))).map
            (fun v => v.value_usd)) ∧
      (calculate_portfolio_metrics df holdings_dict).2.weighted_environmental
        = nanSum ((df.map (mkValuedAsset
              (holdings_dict.getD sample_holdings))).map
            (fun v => v.value_usd.map (fun x => v.esg_e * x)))
          / nanSum ((df.map (mkValuedAsset
              (holdings_dict.getD sample_holdings))).map
            (fun v => v.value_usd)) ∧
      (calculate_portfolio_metrics df holdings_dict).2.weighted_social
        = nanSum ((df.map (mkValuedAsset
              (holdings_dict.getD sample_holdings))).map
            (fun v => v.value_usd.map (fun x => v.esg_s * x)))
          / nanSum ((df.map (mkValuedAsset
              (holdings_dict.getD sample_holdings))).map
            (fun v => v.value_usd)) ∧
      (calculate_portfolio_metrics df holdings_dict).2.weighted_governance
        = nanSum ((df.map (mkValuedAsset
              (holdings_dict.getD sample_holdings))).map
            (fun v => v.value_usd.map (fun x => v.esg_g * x)))
          / nanSum ((df.map (mkValuedAsset
              (holdings_dict.getD sample_holdings))).map
            (fun v => v.value_usd)) := by
    simp only [calculate_portfolio_metrics]
    rw [if_pos htot']
    exact ⟨rfl, rfl, rfl, rfl⟩
  refine ⟨⟨?_, ?_⟩, ⟨?_, ?_⟩, ⟨?_, ?_⟩, ⟨?_, ?_⟩⟩
  · rw [hmetrics.1]
    exact le_wavg _ (fun v => v.esgScore) lo1 h0
      (fun v hv x hx hxp => (hb v hv (hpos v hv x hx hxp)).1) htot'
  · rw [hmetrics.1]
    exact wavg_le _ (fun v => v.esgScore) hi1 h0
      (fun v hv x hx hxp => (hb v hv (hpos v hv x hx hxp)).2.1) htot'
  · rw [hmetrics.2.1]
    exact le_wavg _ (fun v => v.esg_e) lo2 h0
      (fun v hv x hx hxp => (hb v hv (hpos v hv x hx hxp)).2.2.1) htot'
  · rw [hmetrics.2.1]
    exact wavg_le _ (fun v => v.esg_e) hi2 h0
      (fun v hv x hx hxp => (hb v hv (hpos v hv x hx hxp)).2.2.2.1) htot'
  · rw [hmetrics.2.2.1]
    exact le_wavg _ (fun v => v.esg_s) lo3 h0
      (fun v hv x hx hxp => (hb v hv (hpos v hv x hx hxp)).2.2.2.2.1) htot'
  · rw [hmetrics.2.2.1]
    exact wavg_le _ (fun v => v.esg_s) hi3 h0
      (fun v hv x hx hxp => (hb v hv (hpos v hv x hx hxp)).2.2.2.2.2.1) htot'
  · rw [hmetrics.2.2.2]
    exact le_wavg _ (fun v => v.esg_g) lo4 h0
      (fun v hv x hx hxp =>
        (hb v hv (hpos v hv x hx hxp)).2.2.2.2.2.2.1) htot'
  · rw [hmetrics.2.2.2]
    exact wavg_le _ (fun v => v.esg_g) hi4 h0
      (fun v hv x hx hxp =>
        (hb v hv (hpos v hv x hx hxp)).2.2.2.2.2.2.2) htot'

/-- Claim C7 amended witness: the bound theorem on one asset priced 100
with holding 2 and component scores 40/50/60, bounds [40, 60]. -/
theorem weighted_metrics_bounded_witness :
    (∀ a ∈ [(⟨"B", "B", some 100, 40, 50, 60, 50, "B (Fair)"⟩ :
        MergedAsset)], ∀ p : Rat, a.last_price = some p → 0 ≤ p) ∧
    (∀ x ∈ (some [("B", (2 : Rat))] :
        Option (List (String × Rat))).getD sample_holdings, 0 ≤ x.2) ∧
    (0 < (calculate_portfolio_metrics
        [⟨"B", "B", some 100, 40, 50, 60, 50, "B (Fair)"⟩]
        (some [("B", 2)])).2.total_value) ∧
    (∀ v ∈ (calculate_portfolio_metrics
        [⟨"B", "B", some 100, 40, 50, 60, 50, "B (Fair)"⟩]
        (some [("B", 2)])).1,
      0 < v.holding →
        (40 : Rat) ≤ v.esgScore ∧ v.esgScore ≤ 60 ∧
        (40 : Rat) ≤ v.esg_e ∧ v.esg_e ≤ 60 ∧
        (40 : Rat) ≤ v.esg_s ∧ v.esg_s ≤ 60 ∧
        (40 : Rat) ≤ v.esg_g ∧ v.esg_g ≤ 60) ∧
    (((40 : Rat) ≤ (calculate_portfolio_metrics
          [⟨"B", "B", some 100, 40, 50, 60, 50, "B (Fair)"⟩]
          (some [("B", 2)])).2.weighted_esg ∧
        (calculate_portfolio_metrics
          [⟨"B", "B", some 100, 40, 50, 60, 50, "B (Fair)"⟩]
          (some [("B", 2)])).2.weighted_esg ≤ 60) ∧
      ((40 : Rat) ≤ (calculate_portfolio_metrics
          [⟨"B", "B", some 100, 40, 50, 60, 50, "B (Fair)"⟩]
          (some [("B", 2)])).2.weighted_environmental ∧
        (calculate_portfolio_metrics
          [⟨"B", "B", some 100, 40, 50, 60, 50, "B (Fair)"⟩]
          (some [("B", 2)])).2.weighted_environmental ≤ 60) ∧
      ((40 : Rat) ≤ (calculate_portfolio_metrics
          [⟨"B", "B", some 100, 40, 50, 60, 50, "B (Fair)"⟩]
          (some [("B", 2)])).2.weighted_social ∧
        (calculate_portfolio_metrics
          [⟨"B", "B", some 100, 40, 50, 60, 50, "B (Fair)"⟩]
          (some [("B", 2)])).2.weighted_social ≤ 60) ∧
      ((40 : Rat) ≤ (calculate_portfolio_metrics
          [⟨"B", "B", some 100, 40, 50, 60, 50, "B (Fair)"⟩]
          (some [("B", 2)])).2.weighted_governance ∧
        (calculate_portfolio_metrics
          [⟨"B", "B", some 100, 40, 50, 60, 50, "B (Fair)"⟩]
          (some [("B", 2)])).2.weighted_governance ≤ 60)) := by
  have h1 : ∀ a ∈ [(⟨"B", "B", some 100, 40, 50, 60, 50, "B (Fair)"⟩ :
      MergedAsset)], ∀ p : Rat, a.last_price = some p → 0 ≤ p := by
    intro a ha p hp
    rw [List.mem_singleton] at ha
    subst ha
    obtain rfl := Option.some_inj.mp hp.symm
    norm_num
  have h2 : ∀ x ∈ (some [("B", (2 : Rat))] :
      Option (List (String × Rat))).getD sample_holdings, 0 ≤ x.2 := by
    intro x hx
    rw [Option.getD_some, List.mem_singleton] at hx
    subst hx
    norm_num
  have h3 : 0 < (calculate_portfolio_metrics
      [⟨"B", "B", some 100, 40, 50, 60, 50, "B (Fair)"⟩]
      (some [("B", 2)])).2.total_value := by
    simp [calculate_portfolio_metrics, mkValuedAsset, nanSum]
  have h4 : ∀ v ∈ (calculate_portfolio_metrics
      [⟨"B", "B", some 100, 40, 50, 60, 50, "B (Fair)"⟩]
      (some [("B", 2)])).1,
      0 < v.holding →
        (40 : Rat) ≤ v.esgScore ∧ v.esgScore ≤ 60 ∧
        (40 : Rat) ≤ v.esg_e ∧ v.esg_e ≤ 60 ∧
        (40 : Rat) ≤ v.esg_s ∧ v.esg_s ≤ 60 ∧
        (40 : Rat) ≤ v.esg_g ∧ v.esg_g ≤ 60 := by
    intro v hv _
    simp only [calculate_portfolio_metrics, List.map_cons, List.map_nil,
      List.mem_singleton] at hv
    subst hv
    refine ⟨?_, ?_, ?_, ?_, ?_, ?_, ?_, ?_⟩ <;>
      simp [mkValuedAsset] <;> norm_num
  exact ⟨h1, h2, h3, h4,
    weighted_metrics_bounded _ _ 40 60 40 60 40 60 40 60 h1 h2 h3 h4⟩

end Theorems
